import Mathlib

/-!
Shallow embedding of `src/td_learning.py` (class `TDLearningAgent`), the
tabular TD-learning agent for Easy21, together with theorems checking the
specification's claims against it.

Modelling conventions:
* numpy `float32` scalars are modelled as rationals (`ℚ`);
* the `(11, 22, n_actions)` tables are modelled as flat lists in C order,
  with `flatIdx` computing the flat offset of `[i, j, k]`;
* `random.random()` and `random.choice(range(n))` are modelled as oracle
  parameters `u : ℚ` and `c : ℕ` supplied by the caller;
* a Python exception (IndexError on an empty deque, ValueError on tuple
  unpacking, KeyError on a missing dict key) is modelled as `none`;
* `collections.deque` with `maxlen=2` is modelled as a list of length at
  most 2; `dq2` is its `append`.
-/

set_option maxRecDepth 20000

namespace Easy21

/-- A lookup state, the pair `(dealer_card, player_sum)`. -/
abbrev GameState := ℕ × ℕ

/-- The mutable state of a `TDLearningAgent` (constructor `__init__`):
`_possible_actions`, `_n_0`, `_gamma`, the value table
`_state_action_values` and visit table `_state_action_visits` (shape
`(11, 22, n_actions)`, flattened in C order), and the three capacity-2
history deques `_past_states`, `_past_actions`, `_past_returns`. -/
structure Agent where
  possible_actions : List String
  n_0 : ℚ
  gamma : ℚ
  state_action_values : List ℚ
  state_action_visits : List ℚ
  past_states : List GameState
  past_actions : List ℕ
  past_returns : List ℚ
deriving DecidableEq

/-- Python `self._n_actions = len(possible_actions)`. -/
def Agent.n_actions (ag : Agent) : ℕ := ag.possible_actions.length

/-- Flat (C-order) offset of index `[i, j, k]` in an array of shape
`(11, 22, n)`. -/
def flatIdx (n i j k : ℕ) : ℕ := i * (22 * n) + j * n + k

/-- Read `Q[s, a]`, i.e. `self._state_action_values[s[0], s[1], a]`. -/
def Agent.qval (ag : Agent) (s : GameState) (a : ℕ) : ℚ :=
  ag.state_action_values.getD (flatIdx ag.n_actions s.1 s.2 a) 0

/-- Read `N[s, a]`, i.e. `self._state_action_visits[s[0], s[1], a]`. -/
def Agent.nval (ag : Agent) (s : GameState) (a : ℕ) : ℚ :=
  ag.state_action_visits.getD (flatIdx ag.n_actions s.1 s.2 a) 0

/-- Models `ndarray.take(state)` where `state` is the pair
`(dealer_card, player_sum)`: numpy's `take` with no axis flattens the
array and picks the elements at the given FLAT indices, so the result is
`[flat[dealer_card], flat[player_sum]]` — not the row `arr[state]`. -/
def npTake (tbl : List ℚ) (s : GameState) : List ℚ :=
  [tbl.getD s.1 0, tbl.getD s.2 0]

/-- Models `np.argmax`: index of the first occurrence of the maximum
(0 on an empty array). -/
def npArgmax (l : List ℚ) : ℕ :=
  (List.range l.length).foldl
    (fun best i => if l.getD best 0 < l.getD i 0 then i else best) 0

/-- The quantity `epsilon = n_0 / (n_0 + self._state_action_visits.take(state).sum())`
computed at the top of `take_action`. -/
def epsilon (ag : Agent) (s : GameState) : ℚ :=
  ag.n_0 / (ag.n_0 + (npTake ag.state_action_visits s).sum)

/-- `take_action(self, state, explore=True)`.  The random draw
`random.random()` is the oracle `u`, the random index
`random.choice(range(self._n_actions))` is the oracle `c`.  The method
mutates nothing, so the agent is returned unchanged alongside the chosen
action `self._possible_actions[action_id]`. -/
def take_action (ag : Agent) (s : GameState) (explore : Bool) (u : ℚ) (c : ℕ) :
    Agent × String :=
  let action_id :=
    if explore = true ∧ u < epsilon ag s then c
    else npArgmax (npTake ag.state_action_values s)
  (ag, ag.possible_actions.getD action_id "")

/-- Lookup in `self._action2id = dict(zip(possible_actions, range(n_actions)))`:
on duplicate action names the later index overwrites the earlier one, so
this returns the index of the LAST occurrence; a missing key (Python
`KeyError`) is `none`. -/
def action2id : List String → String → Option ℕ
  | [], _ => none
  | x :: xs, a =>
    match action2id xs a with
    | some j => some (j + 1)
    | none => if x = a then some 0 else none

/-- `append` on a `collections.deque` with `maxlen=2`: the new element goes
on the right and the oldest element is evicted once the length exceeds 2. -/
def dq2 {α : Type} (xs : List α) (x : α) : List α :=
  let ys := xs ++ [x]
  ys.drop (ys.length - 2)

/-- `_memorize(self, state, action)`: translate the action to its id and
append the pair to the history deques. -/
def memorize (ag : Agent) (s : GameState) (action : String) : Option Agent :=
  match action2id ag.possible_actions action with
  | some action_id =>
    some { ag with
            past_states := dq2 ag.past_states s
            past_actions := dq2 ag.past_actions action_id }
  | none => none

/-- The write performed by the terminal branch of `_update`:
`N[s1,a1] += 1; Q[s1,a1] += (r - Q[s1,a1]) / N[s1,a1]`,
with the popped reward removed from `_past_returns`. -/
def terminalWrite (ag : Agent) (s1 : GameState) (a1 : ℕ) (r : ℚ)
    (rest : List ℚ) : Agent :=
  let cell := flatIdx ag.n_actions s1.1 s1.2 a1
  let visits := ag.state_action_visits.set cell
    (ag.state_action_visits.getD cell 0 + 1)
  let q := ag.state_action_values.getD cell 0
  { ag with
      past_returns := rest
      state_action_visits := visits
      state_action_values :=
        ag.state_action_values.set cell (q + (r - q) / visits.getD cell 0) }

/-- The write performed by the non-terminal branch of `_update`:
`N[s0,a0] += 1; Q[s0,a0] += (r + gamma * Q[s1,a1] - Q[s0,a0]) / N[s0,a0]`,
with the bootstrapped value `Q[s1,a1]` read from the table before the
assignment, and the popped reward removed from `_past_returns`. -/
def tdWrite (ag : Agent) (s0 : GameState) (a0 : ℕ) (s1 : GameState) (a1 : ℕ)
    (r : ℚ) (rest : List ℚ) : Agent :=
  let cell := flatIdx ag.n_actions s0.1 s0.2 a0
  let cellNext := flatIdx ag.n_actions s1.1 s1.2 a1
  let visits := ag.state_action_visits.set cell
    (ag.state_action_visits.getD cell 0 + 1)
  let q := ag.state_action_values.getD cell 0
  let qNext := ag.state_action_values.getD cellNext 0
  { ag with
      past_returns := rest
      state_action_visits := visits
      state_action_values :=
        ag.state_action_values.set cell
          (q + (r + ag.gamma * qNext - q) / visits.getD cell 0) }

/-- `_update(self, terminate)`.  If `terminate and len(past_states) == 1`
the single recorded pair is read (`past_states[0]`, `past_actions[0]`);
otherwise `past_states[0]`, `past_states[1]` are read and
`a, a_1 = past_actions` unpacks the action deque (exactly two entries).
Then `r = past_returns.popleft()`, and the table write is the TD write on
the older pair when not terminating, and the Monte-Carlo write on the
newer pair when terminating.  Any Python IndexError / ValueError on the
reads is `none`. -/
def update (ag : Agent) (terminate : Bool) : Option Agent :=
  if terminate = true ∧ ag.past_states.length = 1 then
    match ag.past_states, ag.past_actions, ag.past_returns with
    | s1 :: _, a1 :: _, r :: rest => some (terminalWrite ag s1 a1 r rest)
    | _, _, _ => none
  else
    match ag.past_states, ag.past_actions, ag.past_returns with
    | s0 :: s1 :: _, [a0, a1], r :: rest =>
      if terminate = true then some (terminalWrite ag s1 a1 r rest)
      else some (tdWrite ag s0 a0 s1 a1 r rest)
    | _, _, _ => none

/-- `_clear_cache(self)`: reset the three history deques to fresh empty
capacity-2 deques (the `gc.collect()` call has no observable effect). -/
def clear_cache (ag : Agent) : Agent :=
  { ag with past_states := [], past_actions := [], past_returns := [] }

/-- `observe_and_act(self, state, reward=None, terminate=False)`:
when not terminating, pick an action with `take_action` (exploring) and
memorize the pair; when a reward is present, append it to
`_past_returns` and run `_update`; when terminating, clear the history
buffers.  Returns the chosen action (or `None` on termination); `none`
models an uncaught exception from the update step. -/
def observe_and_act (ag : Agent) (s : GameState) (reward : Option ℚ)
    (terminate : Bool) (u : ℚ) (c : ℕ) : Option (Agent × Option String) :=
  let step1 : Option (Agent × Option String) :=
    if terminate = true then some (ag, none)
    else
      let p := take_action ag s true u c
      match memorize p.1 s p.2 with
      | some ag1 => some (ag1, some p.2)
      | none => none
  match step1 with
  | none => none
  | some (ag1, action) =>
    let step2 : Option Agent :=
      match reward with
      | none => some ag1
      | some r => update { ag1 with past_returns := dq2 ag1.past_returns r } terminate
    match step2 with
    | none => none
    | some ag2 => some (if terminate = true then clear_cache ag2 else ag2, action)

/-- Models `ndarray.tolist()` on the `(11, 22, n)` table stored as the
flat list `flat`: the nested-list form, element `[i][j][k]` being
`flat[flatIdx n i j k]`. -/
def tolist3 (n : ℕ) (flat : List ℚ) : List (List (List ℚ)) :=
  (List.range 11).map fun i =>
    (List.range 22).map fun j =>
      (List.range n).map fun k => flat.getD (flatIdx n i j k) 0

/-- Models `np.asarray` on a nested list of shape `(11, 22, n)`: the
flattened (C-order) element list. -/
def asarray3 (x : List (List (List ℚ))) : List ℚ := x.flatten.flatten

/-- Modelled from the spec: `self._save_local` (inherited from the base
class `RLearningAgent`, whose source is not part of the repository
snapshot) "serializes the entire agent object ... to a file path"; the
pickled blob is modelled as a record of the object's fields at pickling
time, with the tables in their `tolist` nested form. -/
structure SavedAgent where
  possible_actions : List String
  n_0 : ℚ
  gamma : ℚ
  state_action_values : List (List (List ℚ))
  state_action_visits : List (List (List ℚ))
  past_states : List GameState
  past_actions : List ℕ
  past_returns : List ℚ
deriving DecidableEq

/-- `save(self, output_dir, iteration=None)` without the I/O: clear the
history cache, convert the tables to lists, pickle the object (the
returned `SavedAgent`), then convert the tables back with `np.asarray`
(the returned `Agent` is `self` after the call; plotting is ignored). -/
def save (ag : Agent) : Agent × SavedAgent :=
  let ag1 := clear_cache ag
  let qList := tolist3 ag1.n_actions ag1.state_action_values
  let nList := tolist3 ag1.n_actions ag1.state_action_visits
  let blob : SavedAgent :=
    { possible_actions := ag1.possible_actions
      n_0 := ag1.n_0
      gamma := ag1.gamma
      state_action_values := qList
      state_action_visits := nList
      past_states := ag1.past_states
      past_actions := ag1.past_actions
      past_returns := ag1.past_returns }
  let ag2 := { ag1 with
                state_action_values := asarray3 qList
                state_action_visits := asarray3 nList }
  (ag2, blob)

/-- `load(fname)`: unpickle the object (modelled from the spec: `pickle.load`
reading back the blob written by `save`) and restore the two tables with
`np.asarray`. -/
def load (b : SavedAgent) : Agent :=
  { possible_actions := b.possible_actions
    n_0 := b.n_0
    gamma := b.gamma
    state_action_values := asarray3 b.state_action_values
    state_action_visits := asarray3 b.state_action_visits
    past_states := b.past_states
    past_actions := b.past_actions
    past_returns := b.past_returns }

/-! Concrete agents used as inputs for the bug exhibits and witnesses. -/

/-- A zero table of shape `(11, 22, 2)` flattened: `242 * 2 = 484` cells. -/
def zeroTable2 : List ℚ := List.replicate 484 0

/-- A freshly constructed two-action agent (`possible_actions=['hit','stick']`,
`n_0=100`, `gamma=1`): all-zero tables, empty history deques. -/
def agentFresh : Agent :=
  { possible_actions := ["hit", "stick"]
    n_0 := 100
    gamma := 1
    state_action_values := zeroTable2
    state_action_visits := zeroTable2
    past_states := []
    past_actions := []
    past_returns := [] }

/-- The fresh agent with the single cell `Q[1,2,1] = 1` written
(flat offset `flatIdx 2 1 2 1 = 49`). -/
def agentC1 : Agent :=
  { agentFresh with state_action_values := zeroTable2.set 49 1 }

/-- The fresh agent with the single cell `N[1,2,0] = 3` written
(flat offset `flatIdx 2 1 2 0 = 48`). -/
def agentC2 : Agent :=
  { agentFresh with state_action_visits := zeroTable2.set 48 3 }

/-- The fresh agent with history `[(1,2), (3,4)]`, action ids `[0, 1]` and
one pending reward `1`, ready for a non-terminal update. -/
def agentU : Agent :=
  { agentFresh with
      past_states := [(1, 2), (3, 4)]
      past_actions := [0, 1]
      past_returns := [1] }

/-- The table state after the first update of the C3 scenario
(`Q[1,2,0] = 1`, `N[1,2,0] = 1`), with a fresh two-step history on the
same older pair `(1,2)` with action id 0, reward `0`, and a successor
pair `(9,9)` of value `0`. -/
def agentU2 : Agent :=
  { agentFresh with
      state_action_values := zeroTable2.set 48 1
      state_action_visits := zeroTable2.set 48 1
      past_states := [(1, 2), (9, 9)]
      past_actions := [0, 0]
      past_returns := [0] }

/-- The fresh agent with the single-pair history `[(3,4)]`, action id `1`
and pending reward `-1`, ready for a terminal update. -/
def agentT : Agent :=
  { agentFresh with
      past_states := [(3, 4)]
      past_actions := [1]
      past_returns := [-1] }

/-- A one-action agent (table length `242 * 1`) with a non-trivial cell
`Q[0,3,0] = 3/2` and non-empty history, used for the save/load witness. -/
def agentS : Agent :=
  { possible_actions := ["hit"]
    n_0 := 100
    gamma := 1
    state_action_values := (List.replicate 242 (0 : ℚ)).set 7 (3 / 2)
    state_action_visits := List.replicate 242 (0 : ℚ)
    past_states := [(1, 2)]
    past_actions := [0]
    past_returns := [1] }

end Easy21

namespace Easy21

/-! Basic lemmas about the list-level building blocks. -/

lemma getD_set_self (l : List ℚ) (i : ℕ) (v : ℚ) (h : i < l.length) :
    (l.set i v).getD i 0 = v := by
  rw [List.getD_eq_getElem _ _ (by simpa using h)]
  simp

lemma getD_set_ne (l : List ℚ) (i j : ℕ) (v : ℚ) (h : i ≠ j) :
    (l.set i v).getD j 0 = l.getD j 0 := by
  simp [List.getD_eq_getD_get?, List.get?_eq_getElem?, List.getElem?_set_ne h]

lemma flatIdx_lt (n i j k : ℕ) (hi : i < 11) (hj : j < 22) (hk : k < n) :
    flatIdx n i j k < 242 * n := by
  have h1 : i * (22 * n) ≤ 10 * (22 * n) :=
    Nat.mul_le_mul_right _ (by omega)
  have h2 : j * n ≤ 21 * n := Nat.mul_le_mul_right _ (by omega)
  calc flatIdx n i j k = i * (22 * n) + j * n + k := rfl
    _ ≤ 10 * (22 * n) + 21 * n + k := by omega
    _ < 10 * (22 * n) + 21 * n + n := by omega
    _ = 242 * n := by ring

lemma npArgmax_pair (x y : ℚ) : npArgmax [x, y] = if x < y then 1 else 0 := by
  have hr : List.range 2 = [0, 1] := rfl
  simp only [npArgmax, List.length_cons, List.length_nil, hr, List.foldl]
  simp [lt_irrefl]

lemma npArgmax_pair_lt (x y : ℚ) : npArgmax [x, y] < 2 := by
  rw [npArgmax_pair]
  split <;> omega

lemma action2id_eq_none_iff (acts : List String) (a : String) :
    action2id acts a = none ↔ a ∉ acts := by
  induction acts with
  | nil => simp [action2id]
  | cons x xs ih =>
    cases hrec : action2id xs a with
    | some j =>
      have hmem : a ∈ xs := by
        by_contra hn
        rw [← ih] at hn
        simp [hrec] at hn
      simp [action2id, hrec, hmem]
    | none =>
      have hnm : a ∉ xs := (ih).mp hrec
      by_cases hx : x = a
      · simp [action2id, hrec, hx]
      · have hax : ¬a = x := fun hh => hx hh.symm
        simp [action2id, hrec, hx, hnm, hax]

lemma action2id_isSome (acts : List String) (a : String) (h : a ∈ acts) :
    ∃ j, action2id acts a = some j := by
  cases hval : action2id acts a with
  | some j => exact ⟨j, rfl⟩
  | none => exact absurd ((action2id_eq_none_iff acts a).mp hval) (by simpa using h)

lemma getD_mem (l : List String) (i : ℕ) (h : i < l.length) : l.getD i "" ∈ l := by
  rw [List.getD_eq_getElem _ _ h]
  exact List.getElem_mem h

lemma take_action_snd_mem (ag : Agent) (s : GameState) (u : ℚ) (c : ℕ)
    (h2 : 2 ≤ ag.n_actions) (hc : c < ag.n_actions) :
    (take_action ag s true u c).2 ∈ ag.possible_actions := by
  unfold take_action
  dsimp only
  split
  · exact getD_mem _ _ hc
  · refine getD_mem _ _ ?_
    calc npArgmax (npTake ag.state_action_values s) < 2 := npArgmax_pair_lt _ _
      _ ≤ ag.possible_actions.length := h2

lemma dq2_nil {α : Type} (x : α) : dq2 [] x = [x] := rfl

lemma memorize_some (ag : Agent) (s : GameState) (act : String)
    (h : act ∈ ag.possible_actions) :
    ∃ aid ag1, action2id ag.possible_actions act = some aid ∧
      memorize ag s act = some ag1 ∧
      ag1.past_states = dq2 ag.past_states s ∧
      ag1.past_actions = dq2 ag.past_actions aid ∧
      ag1.past_returns = ag.past_returns ∧
      ag1.state_action_values = ag.state_action_values ∧
      ag1.state_action_visits = ag.state_action_visits ∧
      ag1.possible_actions = ag.possible_actions ∧
      ag1.n_0 = ag.n_0 ∧ ag1.gamma = ag.gamma := by
  obtain ⟨aid, haid⟩ := action2id_isSome _ _ h
  refine ⟨aid,
    { ag with past_states := dq2 ag.past_states s,
              past_actions := dq2 ag.past_actions aid },
    haid, ?_, rfl, rfl, rfl, rfl, rfl, rfl, rfl, rfl⟩
  simp [memorize, haid]

end Easy21

namespace Easy21

/-! Equations describing the branches of `update`. -/

lemma update_eq_td (ag : Agent) (s s' : GameState) (a a' : ℕ) (r : ℚ)
    (rs : List ℚ) (hs : ag.past_states = [s, s'])
    (hact : ag.past_actions = [a, a']) (hr : ag.past_returns = r :: rs) :
    update ag false = some (tdWrite ag s a s' a' r rs) := by
  simp [update, hs, hact, hr]

lemma update_eq_terminal_single (ag : Agent) (s' : GameState) (a' : ℕ) (r : ℚ)
    (rs : List ℚ) (hs : ag.past_states = [s']) (hact : ag.past_actions = [a'])
    (hr : ag.past_returns = r :: rs) :
    update ag true = some (terminalWrite ag s' a' r rs) := by
  simp [update, hs, hact, hr]

lemma update_eq_terminal_two (ag : Agent) (s s' : GameState) (a a' : ℕ) (r : ℚ)
    (rs : List ℚ) (hs : ag.past_states = [s, s'])
    (hact : ag.past_actions = [a, a']) (hr : ag.past_returns = r :: rs) :
    update ag true = some (terminalWrite ag s' a' r rs) := by
  simp [update, hs, hact, hr]

lemma update_none_of_no_states (ag : Agent) (t : Bool)
    (hs : ag.past_states = []) : update ag t = none := by
  simp [update, hs]

lemma update_none_of_single_nonterminal (ag : Agent) (s : GameState)
    (hs : ag.past_states = [s]) : update ag false = none := by
  simp [update, hs]

/-! The value and visit reads after a `terminalWrite` / `tdWrite`. -/

lemma terminalWrite_nval (ag : Agent) (s1 : GameState) (a1 : ℕ) (r : ℚ)
    (rs : List ℚ) (hN : ag.state_action_visits.length = 242 * ag.n_actions)
    (hd : s1.1 < 11) (hp : s1.2 < 22) (ha : a1 < ag.n_actions) :
    (terminalWrite ag s1 a1 r rs).nval s1 a1 = ag.nval s1 a1 + 1 := by
  have hcell : flatIdx ag.possible_actions.length s1.1 s1.2 a1
      < ag.state_action_visits.length := by
    rw [hN]; exact flatIdx_lt _ _ _ _ hd hp ha
  simp only [terminalWrite, Agent.nval, Agent.n_actions]
  exact getD_set_self _ _ _ hcell

lemma terminalWrite_qval (ag : Agent) (s1 : GameState) (a1 : ℕ) (r : ℚ)
    (rs : List ℚ) (hQ : ag.state_action_values.length = 242 * ag.n_actions)
    (hN : ag.state_action_visits.length = 242 * ag.n_actions)
    (hd : s1.1 < 11) (hp : s1.2 < 22) (ha : a1 < ag.n_actions) :
    (terminalWrite ag s1 a1 r rs).qval s1 a1
      = ag.qval s1 a1 + (r - ag.qval s1 a1) / (ag.nval s1 a1 + 1) := by
  have hcellQ : flatIdx ag.possible_actions.length s1.1 s1.2 a1
      < ag.state_action_values.length := by
    rw [hQ]; exact flatIdx_lt _ _ _ _ hd hp ha
  have hcellN : flatIdx ag.possible_actions.length s1.1 s1.2 a1
      < ag.state_action_visits.length := by
    rw [hN]; exact flatIdx_lt _ _ _ _ hd hp ha
  simp only [terminalWrite, Agent.qval, Agent.nval, Agent.n_actions]
  rw [getD_set_self _ _ _ hcellQ, getD_set_self _ _ _ hcellN]

lemma tdWrite_nval (ag : Agent) (s0 : GameState) (a0 : ℕ) (s1 : GameState)
    (a1 : ℕ) (r : ℚ) (rs : List ℚ)
    (hN : ag.state_action_visits.length = 242 * ag.n_actions)
    (hd : s0.1 < 11) (hp : s0.2 < 22) (ha : a0 < ag.n_actions) :
    (tdWrite ag s0 a0 s1 a1 r rs).nval s0 a0 = ag.nval s0 a0 + 1 := by
  have hcell : flatIdx ag.possible_actions.length s0.1 s0.2 a0
      < ag.state_action_visits.length := by
    rw [hN]; exact flatIdx_lt _ _ _ _ hd hp ha
  simp only [tdWrite, Agent.nval, Agent.n_actions]
  exact getD_set_self _ _ _ hcell

lemma tdWrite_qval (ag : Agent) (s0 : GameState) (a0 : ℕ) (s1 : GameState)
    (a1 : ℕ) (r : ℚ) (rs : List ℚ)
    (hQ : ag.state_action_values.length = 242 * ag.n_actions)
    (hN : ag.state_action_visits.length = 242 * ag.n_actions)
    (hd : s0.1 < 11) (hp : s0.2 < 22) (ha : a0 < ag.n_actions) :
    (tdWrite ag s0 a0 s1 a1 r rs).qval s0 a0
      = ag.qval s0 a0
        + (r + ag.gamma * ag.qval s1 a1 - ag.qval s0 a0) / (ag.nval s0 a0 + 1) := by
  have hcellQ : flatIdx ag.possible_actions.length s0.1 s0.2 a0
      < ag.state_action_values.length := by
    rw [hQ]; exact flatIdx_lt _ _ _ _ hd hp ha
  have hcellN : flatIdx ag.possible_actions.length s0.1 s0.2 a0
      < ag.state_action_visits.length := by
    rw [hN]; exact flatIdx_lt _ _ _ _ hd hp ha
  simp only [tdWrite, Agent.qval, Agent.nval, Agent.n_actions]
  rw [getD_set_self _ _ _ hcellQ, getD_set_self _ _ _ hcellN]

end Easy21

namespace Easy21

/-! Flattening a tabulated nested list recovers the flat list. -/

lemma flatten_tab {α : Type} (m k : ℕ) (f : ℕ → α) :
    ((List.range m).map fun i => (List.range k).map fun j => f (i * k + j)).flatten
      = (List.range (m * k)).map f := by
  induction m with
  | zero => simp
  | succ m ih =>
    rw [List.range_succ, List.map_append, List.flatten_append, ih]
    have hmul : (m + 1) * k = m * k + k := by ring
    rw [hmul, List.range_add, List.map_append, List.map_map]
    simp [Function.comp, Nat.add_comm]

lemma map_getD_range (q : List ℚ) :
    (List.range q.length).map (fun t => q.getD t 0) = q := by
  apply List.ext_getElem
  · simp
  · intro i h1 h2
    simp only [List.getElem_map, List.getElem_range]
    exact List.getD_eq_getElem _ _ h2

lemma asarray3_tolist3 (n : ℕ) (q : List ℚ) (hlen : q.length = 242 * n) :
    asarray3 (tolist3 n q) = q := by
  unfold asarray3 tolist3
  have hinner : ∀ i : ℕ,
      ((List.range 22).map fun j =>
        (List.range n).map fun k => q.getD (flatIdx n i j k) 0).flatten
        = (List.range (22 * n)).map fun t => q.getD (i * (22 * n) + t) 0 := by
    intro i
    have h := flatten_tab 22 n (fun t => q.getD (i * (22 * n) + t) 0)
    have harg : ∀ j k : ℕ, i * (22 * n) + (j * n + k) = flatIdx n i j k := by
      intro j k; simp [flatIdx]; ring
    simpa [harg] using h
  rw [List.flatten_flatten, List.map_map]
  have hmaps : ((List.range 11).map
      ((fun l : List (List ℚ) => l.flatten) ∘ fun i =>
        (List.range 22).map fun j =>
          (List.range n).map fun k => q.getD (flatIdx n i j k) 0))
      = (List.range 11).map fun i =>
          (List.range (22 * n)).map fun t => q.getD (i * (22 * n) + t) 0 := by
    apply List.map_congr_left
    intro i _
    exact hinner i
  rw [hmaps, flatten_tab 11 (22 * n) (fun t => q.getD t 0)]
  have h242 : 11 * (22 * n) = q.length := by rw [hlen]; ring
  rw [h242, map_getD_range]

end Easy21

namespace Easy21


/-- C1: the spec claims that `take_action` with `explore=False` returns the
lowest-id action maximizing `Q[state, a]` over action ids.  The code applies
`np.argmax` to `Q.take(state)`, which is the pair of FLAT elements
`Q.flat[dealer]`, `Q.flat[player]` — not the row `Q[state, :]`.  On
`agentC1` (all zero except `Q[1,2,1] = 1`) at state `(1,2)` the row argmax
is action id 1, i.e. `"stick"`, but the call returns `"hit"`. -/
theorem take_action_flat_index_bug :
    (take_action agentC1 (1, 2) false 0 0).2 = "hit" ∧
    npArgmax [agentC1.qval (1, 2) 0, agentC1.qval (1, 2) 1] = 1 ∧
    agentC1.possible_actions.getD 1 "" = "stick" ∧
    (take_action agentC1 (1, 2) false 0 0).2
      ≠ agentC1.possible_actions.getD
          (npArgmax [agentC1.qval (1, 2) 0, agentC1.qval (1, 2) 1]) "" := by
  refine ⟨?_, ?_, ?_, ?_⟩ <;> decide

/-- C2: the spec claims the exploration probability is
`n_0 / (n_0 + sum_a N[state, a])`.  The code computes
`n_0 / (n_0 + N.take(state).sum())`, summing the FLAT elements
`N.flat[dealer] + N.flat[player]` instead of the row.  On `agentC2`
(all zero except `N[1,2,0] = 3`, `n_0 = 100`) at state `(1,2)` the code's
epsilon is `1`, while the claimed formula gives `100/103`. -/
theorem epsilon_flat_index_bug :
    epsilon agentC2 (1, 2) = 1 ∧
    agentC2.nval (1, 2) 0 + agentC2.nval (1, 2) 1 = 3 ∧
    agentC2.n_0 / (agentC2.n_0 + (agentC2.nval (1, 2) 0 + agentC2.nval (1, 2) 1))
      ≠ epsilon agentC2 (1, 2) := by
  have hn0 : agentC2.n_0 = 100 := rfl
  have hv0 : agentC2.nval (1, 2) 0 = 3 := rfl
  have hv1 : agentC2.nval (1, 2) 1 = 0 := rfl
  have heps : epsilon agentC2 (1, 2) = 1 := by
    have e1 : agentC2.state_action_visits[1]?.getD 0 = (0 : ℚ) := rfl
    have e2 : agentC2.state_action_visits[2]?.getD 0 = (0 : ℚ) := rfl
    simp [epsilon, npTake, e1, e2, hn0]
  refine ⟨heps, ?_, ?_⟩
  · rw [hv0, hv1]; norm_num
  · rw [heps, hn0, hv0, hv1]; norm_num

/-- C3: a non-terminal update with two recorded pairs and a pending reward
pops the oldest pending reward `r` and performs, on the older pair `(s,a)`
with the newer pair `(s',a')` as successor: `N[s,a] += 1` then
`Q[s,a] += (r + gamma * Q[s',a'] - Q[s,a]) / N[s,a]`. -/
theorem update_nonterminal_rule (ag : Agent) (s s' : GameState) (a a' : ℕ)
    (r : ℚ) (rs : List ℚ)
    (hs : ag.past_states = [s, s'])
    (hact : ag.past_actions = [a, a'])
    (hr : ag.past_returns = r :: rs)
    (hQ : ag.state_action_values.length = 242 * ag.n_actions)
    (hN : ag.state_action_visits.length = 242 * ag.n_actions)
    (hd : s.1 < 11) (hp : s.2 < 22) (ha : a < ag.n_actions) :
    ∃ ag', update ag false = some ag' ∧
      ag'.nval s a = ag.nval s a + 1 ∧
      ag'.qval s a = ag.qval s a
        + (r + ag.gamma * ag.qval s' a' - ag.qval s a) / (ag.nval s a + 1) := by
  exact ⟨tdWrite ag s a s' a' r rs,
    update_eq_td ag s s' a a' r rs hs hact hr,
    tdWrite_nval ag s a s' a' r rs hN hd hp ha,
    tdWrite_qval ag s a s' a' r rs hQ hN hd hp ha⟩

/-- Witness for C3: on the all-zero agent with gamma 1 and pending reward 1
the update yields `N[1,2,0] = 1` and `Q[1,2,0] = 1`; a second update on the
same pair with reward 0 and successor value 0 yields `N[1,2,0] = 2` and
`Q[1,2,0] = 1/2`. -/
theorem update_nonterminal_rule_witness :
    (∃ ag', update agentU false = some ag' ∧
      ag'.nval (1, 2) 0 = 1 ∧ ag'.qval (1, 2) 0 = 1) ∧
    (∃ ag2, update agentU2 false = some ag2 ∧
      ag2.nval (1, 2) 0 = 2 ∧ ag2.qval (1, 2) 0 = 1 / 2) := by
  constructor
  · obtain ⟨ag', hu, hn, hq⟩ :=
      update_nonterminal_rule agentU (1, 2) (3, 4) 0 1 1 []
        rfl rfl rfl (by decide) (by decide) (by decide) (by decide) (by decide)
    have h0 : agentU.nval (1, 2) 0 = 0 := rfl
    have q0 : agentU.qval (1, 2) 0 = 0 := rfl
    have q1 : agentU.qval (3, 4) 1 = 0 := rfl
    have hg : agentU.gamma = 1 := rfl
    refine ⟨ag', hu, ?_, ?_⟩
    · rw [hn, h0]; norm_num
    · rw [hq, h0, q0, q1, hg]; norm_num
  · obtain ⟨ag2, hu, hn, hq⟩ :=
      update_nonterminal_rule agentU2 (1, 2) (9, 9) 0 0 0 []
        rfl rfl rfl (by decide) (by decide) (by decide) (by decide) (by decide)
    have h0 : agentU2.nval (1, 2) 0 = 1 := rfl
    have q0 : agentU2.qval (1, 2) 0 = 1 := rfl
    have q1 : agentU2.qval (9, 9) 0 = 0 := rfl
    have hg : agentU2.gamma = 1 := rfl
    refine ⟨ag2, hu, ?_, ?_⟩
    · rw [hn, h0]; norm_num
    · rw [hq, h0, q0, q1, hg]; norm_num

/-- C4: a terminal update uses the pure Monte-Carlo target `r` with no
bootstrapped successor term, and targets the single recorded pair when
one pair is recorded, and the NEWER pair when two pairs are recorded:
`N[s',a'] += 1` then `Q[s',a'] += (r - Q[s',a']) / N[s',a']`. -/
theorem update_terminal_monte_carlo (ag : Agent) (s' : GameState) (a' : ℕ)
    (r : ℚ) (rs : List ℚ)
    (hr : ag.past_returns = r :: rs)
    (hQ : ag.state_action_values.length = 242 * ag.n_actions)
    (hN : ag.state_action_visits.length = 242 * ag.n_actions)
    (hd : s'.1 < 11) (hp : s'.2 < 22) (ha : a' < ag.n_actions)
    (hhist : (ag.past_states = [s'] ∧ ag.past_actions = [a']) ∨
      ∃ s a, ag.past_states = [s, s'] ∧ ag.past_actions = [a, a']) :
    ∃ ag', update ag true = some ag' ∧
      ag'.nval s' a' = ag.nval s' a' + 1 ∧
      ag'.qval s' a' = ag.qval s' a' + (r - ag.qval s' a') / (ag.nval s' a' + 1) := by
  refine ⟨terminalWrite ag s' a' r rs, ?_,
    terminalWrite_nval ag s' a' r rs hN hd hp ha,
    terminalWrite_qval ag s' a' r rs hQ hN hd hp ha⟩
  rcases hhist with ⟨h1, h2⟩ | ⟨s, a, h1, h2⟩
  · exact update_eq_terminal_single ag s' a' r rs h1 h2 hr
  · exact update_eq_terminal_two ag s s' a a' r rs h1 h2 hr

/-- Witness for C4: a terminal single-history update with reward `-1` on the
previously unvisited pair `((3,4), 1)` yields `N = 1` and `Q = -1`. -/
theorem update_terminal_monte_carlo_witness :
    agentT.nval (3, 4) 1 = 0 ∧
    ∃ ag', update agentT true = some ag' ∧
      ag'.nval (3, 4) 1 = 1 ∧ ag'.qval (3, 4) 1 = -1 := by
  obtain ⟨ag', hu, hn, hq⟩ :=
    update_terminal_monte_carlo agentT (3, 4) 1 (-1) []
      rfl (by decide) (by decide) (by decide) (by decide) (by decide)
      (Or.inl ⟨rfl, rfl⟩)
  have h0 : agentT.nval (3, 4) 1 = 0 := rfl
  have q0 : agentT.qval (3, 4) 1 = 0 := rfl
  refine ⟨h0, ag', hu, ?_, ?_⟩
  · rw [hn, h0]; norm_num
  · rw [hq, h0, q0]; norm_num

end Easy21

namespace Easy21

/-- C5: `save` followed by `load` yields an agent whose `Q` and `N` tables
are element-wise identical to the pre-save tables and whose history
buffers are empty; the history buffers are cleared before saving (the
pickled blob already has empty buffers), and `load` restores `Q` and `N`
to array form. -/
theorem save_load_roundtrip (ag : Agent)
    (hQ : ag.state_action_values.length = 242 * ag.n_actions)
    (hN : ag.state_action_visits.length = 242 * ag.n_actions) :
    (load (save ag).2).state_action_values = ag.state_action_values ∧
    (load (save ag).2).state_action_visits = ag.state_action_visits ∧
    (load (save ag).2).past_states = [] ∧
    (load (save ag).2).past_actions = [] ∧
    (load (save ag).2).past_returns = [] ∧
    (save ag).2.past_states = [] ∧
    (save ag).2.past_actions = [] ∧
    (save ag).2.past_returns = [] := by
  refine ⟨?_, ?_, rfl, rfl, rfl, rfl, rfl, rfl⟩
  · exact asarray3_tolist3 ag.n_actions ag.state_action_values hQ
  · exact asarray3_tolist3 ag.n_actions ag.state_action_visits hN

/-- Witness for C5: the round trip on the one-action agent `agentS` with a
non-trivial value cell and non-empty history buffers. -/
theorem save_load_roundtrip_witness :
    (load (save agentS).2).state_action_values = agentS.state_action_values ∧
    (load (save agentS).2).state_action_visits = agentS.state_action_visits ∧
    (load (save agentS).2).past_states = [] ∧
    (load (save agentS).2).past_actions = [] ∧
    (load (save agentS).2).past_returns = [] ∧
    (save agentS).2.past_states = [] ∧
    (save agentS).2.past_actions = [] ∧
    (save agentS).2.past_returns = [] ∧
    agentS.past_states ≠ [] :=
  ⟨(save_load_roundtrip agentS (by decide) (by decide)).1,
   (save_load_roundtrip agentS (by decide) (by decide)).2.1,
   rfl, rfl, rfl, rfl, rfl, rfl, by decide⟩

/-- A non-terminating, reward-free `observe_and_act` call: the chosen
action is memorized, nothing else changes. -/
lemma observe_no_reward (ag : Agent) (s : GameState) (u : ℚ) (c : ℕ)
    (h2 : 2 ≤ ag.n_actions) (hc : c < ag.n_actions) :
    ∃ ag1 aid,
      observe_and_act ag s none false u c
        = some (ag1, some (take_action ag s true u c).2) ∧
      action2id ag.possible_actions (take_action ag s true u c).2 = some aid ∧
      ag1.past_states = dq2 ag.past_states s ∧
      ag1.past_actions = dq2 ag.past_actions aid ∧
      ag1.past_returns = ag.past_returns ∧
      ag1.state_action_values = ag.state_action_values ∧
      ag1.state_action_visits = ag.state_action_visits := by
  obtain ⟨aid, ag1, haid, hmem, hps, hpa, hpr, hsv, hsn, _, _, _⟩ :=
    memorize_some ag s (take_action ag s true u c).2
      (take_action_snd_mem ag s u c h2 hc)
  refine ⟨ag1, aid, ?_, haid, hps, hpa, hpr, hsv, hsn⟩
  have hfst : (take_action ag s true u c).1 = ag := rfl
  simp only [observe_and_act, hfst, hmem]
  simp

end Easy21

namespace Easy21

/-- C6: an `observe_and_act` call with `terminate=True` that returns
normally returns `None` as the action, leaves all three history buffers
empty, and a subsequent non-terminal call starts a fresh 2-step window
(its recorded history is exactly the one new pair). -/
theorem observe_terminate_clears (ag : Agent) (s : GameState)
    (reward : Option ℚ) (u : ℚ) (c : ℕ) (ag' : Agent) (out : Option String)
    (h : observe_and_act ag s reward true u c = some (ag', out)) :
    out = none ∧ ag'.past_states = [] ∧ ag'.past_actions = [] ∧
    ag'.past_returns = [] ∧
    (∀ s2 u2 c2, 2 ≤ ag'.n_actions → c2 < ag'.n_actions →
      ∃ ag2 act, observe_and_act ag' s2 none false u2 c2 = some (ag2, some act) ∧
        ag2.past_states = [s2] ∧ ag2.past_actions.length = 1 ∧
        ag2.past_returns = []) := by
  have hmain : out = none ∧ ag'.past_states = [] ∧ ag'.past_actions = [] ∧
      ag'.past_returns = [] := by
    cases reward with
    | none =>
      simp only [observe_and_act] at h
      simp at h
      obtain ⟨h1, h2⟩ := h
      rw [← h1]
      exact ⟨h2.symm, rfl, rfl, rfl⟩
    | some r =>
      simp only [observe_and_act, if_true] at h
      cases hup : update { ag with past_returns := dq2 ag.past_returns r } true with
      | none => rw [hup] at h; simp at h
      | some ag2 =>
        rw [hup] at h
        simp at h
        obtain ⟨h1, h2⟩ := h
        rw [← h1]
        exact ⟨h2.symm, rfl, rfl, rfl⟩
  obtain ⟨ho, h1, h2, h3⟩ := hmain
  refine ⟨ho, h1, h2, h3, ?_⟩
  intro s2 u2 c2 hn2 hc2
  obtain ⟨ag2, aid, hobs, _, hps, hpa, hpr, _, _⟩ :=
    observe_no_reward ag' s2 u2 c2 hn2 hc2
  refine ⟨ag2, (take_action ag' s2 true u2 c2).2, hobs, ?_, ?_, ?_⟩
  · rw [hps, h1]; rfl
  · rw [hpa, h2]; rfl
  · rw [hpr, h3]

/-- Witness for C6: a terminal call with a pending two-pair history and
reward 1 on the concrete agent `agentU`. -/
theorem observe_terminate_clears_witness :
    ∃ ag' out, observe_and_act agentU (5, 5) (some 1) true 0 0 = some (ag', out)
      ∧ out = none ∧ ag'.past_states = [] ∧ ag'.past_actions = [] ∧
      ag'.past_returns = [] := by
  cases hobs : observe_and_act agentU (5, 5) (some 1) true 0 0 with
  | none =>
    exfalso
    have hne : observe_and_act agentU (5, 5) (some 1) true 0 0 ≠ none := by decide
    exact hne hobs
  | some p =>
    obtain ⟨pa, po⟩ := p
    obtain ⟨h1, h2, h3, h4, _⟩ :=
      observe_terminate_clears agentU (5, 5) (some 1) 0 0 pa po hobs
    exact ⟨pa, po, rfl, h1, h2, h3, h4⟩

/-- C7: an `observe_and_act` call with no reward and no termination appends
the new (state, action) pair to the history buffers but leaves the `Q`
and `N` tables entirely unchanged — no update fires without a reward. -/
theorem observe_no_reward_frame (ag : Agent) (s : GameState) (u : ℚ) (c : ℕ)
    (h2 : 2 ≤ ag.n_actions) (hc : c < ag.n_actions) :
    ∃ ag1 aid,
      observe_and_act ag s none false u c
        = some (ag1, some (take_action ag s true u c).2) ∧
      action2id ag.possible_actions (take_action ag s true u c).2 = some aid ∧
      ag1.past_states = dq2 ag.past_states s ∧
      ag1.past_actions = dq2 ag.past_actions aid ∧
      ag1.state_action_values = ag.state_action_values ∧
      ag1.state_action_visits = ag.state_action_visits ∧
      ag1.past_returns = ag.past_returns := by
  obtain ⟨ag1, aid, hobs, haid, hps, hpa, hpr, hsv, hsn⟩ :=
    observe_no_reward ag s u c h2 hc
  exact ⟨ag1, aid, hobs, haid, hps, hpa, hsv, hsn, hpr⟩

/-- Witness for C7: the reward-free non-terminal call on `agentU`; its
history deques already hold two pairs, so the oldest is evicted. -/
theorem observe_no_reward_frame_witness :
    ∃ ag1 aid,
      observe_and_act agentU (5, 5) none false 0 0
        = some (ag1, some (take_action agentU (5, 5) true 0 0).2) ∧
      action2id agentU.possible_actions (take_action agentU (5, 5) true 0 0).2
        = some aid ∧
      ag1.past_states = dq2 agentU.past_states (5, 5) ∧
      ag1.past_actions = dq2 agentU.past_actions aid ∧
      ag1.state_action_values = agentU.state_action_values ∧
      ag1.state_action_visits = agentU.state_action_visits ∧
      ag1.past_returns = agentU.past_returns :=
  observe_no_reward_frame agentU (5, 5) 0 0 (by decide) (by decide)

/-- C8: `take_action` mutates nothing — the whole agent, in particular the
`Q` table, the `N` table (visit counts are not incremented) and the
history buffers, is unchanged by the call. -/
theorem take_action_no_mutation (ag : Agent) (s : GameState) (explore : Bool)
    (u : ℚ) (c : ℕ) :
    (take_action ag s explore u c).1 = ag ∧
    (take_action ag s explore u c).1.state_action_values
      = ag.state_action_values ∧
    (take_action ag s explore u c).1.state_action_visits
      = ag.state_action_visits ∧
    (take_action ag s explore u c).1.past_states = ag.past_states ∧
    (take_action ag s explore u c).1.past_actions = ag.past_actions ∧
    (take_action ag s explore u c).1.past_returns = ag.past_returns :=
  ⟨rfl, rfl, rfl, rfl, rfl, rfl⟩

/-- C9: with empty history buffers, the update step fails (Python index
or unpacking error, modelled as `none`) rather than being handled
gracefully: directly for `_update` with either terminate flag, and for
`observe_and_act` with a non-null reward in both the terminal case (no
recorded pair) and the non-terminal case (only the one freshly recorded
pair, fewer than the two the update needs). -/
theorem update_empty_history_fails (ag : Agent) (s : GameState) (r u : ℚ)
    (c : ℕ) (hs : ag.past_states = []) (_hact : ag.past_actions = [])
    (h2 : 2 ≤ ag.n_actions) (hc : c < ag.n_actions) :
    (∀ t : Bool, update ag t = none) ∧
    observe_and_act ag s (some r) true u c = none ∧
    observe_and_act ag s (some r) false u c = none := by
  refine ⟨fun t => update_none_of_no_states ag t hs, ?_, ?_⟩
  · have hupd : update { ag with past_returns := dq2 ag.past_returns r } true
        = none :=
      update_none_of_no_states _ true hs
    simp only [observe_and_act, if_true]
    rw [hupd]
  · obtain ⟨aid, ag1, haid, hmem, hps, hpa, hpr, _, _, _, _, _⟩ :=
      memorize_some ag s (take_action ag s true u c).2
        (take_action_snd_mem ag s u c h2 hc)
    have hps1 : ag1.past_states = [s] := by rw [hps, hs]; rfl
    have hupd : update { ag1 with past_returns := dq2 ag1.past_returns r } false
        = none :=
      update_none_of_single_nonterminal _ s hps1
    have hfst : (take_action ag s true u c).1 = ag := rfl
    simp only [observe_and_act, hfst, hmem, Bool.false_eq_true, if_false]
    rw [hupd]

/-- Witness for C9: the freshly constructed agent `agentFresh`. -/
theorem update_empty_history_fails_witness :
    (∀ t : Bool, update agentFresh t = none) ∧
    observe_and_act agentFresh (5, 5) (some 1) true 0 0 = none ∧
    observe_and_act agentFresh (5, 5) (some 1) false 0 0 = none :=
  update_empty_history_fails agentFresh (5, 5) 1 0 0 rfl rfl (by decide)
    (by decide)

end Easy21

namespace Easy21

/-- Inversion: a successful `update` popped the head reward and produced
either a terminal write on some recorded pair or a TD write. -/
lemma update_some_inv (ag : Agent) (t : Bool) (ag' : Agent)
    (h : update ag t = some ag') :
    ∃ s1 a1 r rest, ag.past_returns = r :: rest ∧
      (ag' = terminalWrite ag s1 a1 r rest ∨
        ∃ s0 a0, ag' = tdWrite ag s0 a0 s1 a1 r rest) := by
  unfold update at h
  split at h
  · split at h
    · rename_i s1 tl a1 tl2 r rest heq1 heq2 heq3
      exact ⟨s1, a1, r, rest, heq3, Or.inl (Option.some.inj h).symm⟩
    · exact absurd h (by simp)
  · split at h
    · rename_i s0 s1 tl a0 a1 r rest heq1 heq2 heq3
      split at h
      · exact ⟨s1, a1, r, rest, heq3, Or.inl (Option.some.inj h).symm⟩
      · exact ⟨s1, a1, r, rest, heq3,
          Or.inr ⟨s0, a0, (Option.some.inj h).symm⟩⟩
    · exact absurd h (by simp)

/-- C10: a successful `_update` pops exactly one pending reward and writes
one cell of the `Q` table and the same single cell of the `N` table;
every other entry of both tables, `gamma`, `n_0`, the action list behind
the action-id mappings, and the state/action history deques are
unchanged. -/
theorem update_frame (ag : Agent) (t : Bool) (ag' : Agent)
    (h : update ag t = some ag') :
    ag.past_returns ≠ [] ∧
    ag'.past_returns = ag.past_returns.tail ∧
    (∃ cell : ℕ,
      (∃ qv, ag'.state_action_values = ag.state_action_values.set cell qv) ∧
      (∃ nv, ag'.state_action_visits = ag.state_action_visits.set cell nv) ∧
      ∀ m : ℕ, m ≠ cell →
        ag'.state_action_values.getD m 0 = ag.state_action_values.getD m 0 ∧
        ag'.state_action_visits.getD m 0 = ag.state_action_visits.getD m 0) ∧
    ag'.gamma = ag.gamma ∧ ag'.n_0 = ag.n_0 ∧
    ag'.possible_actions = ag.possible_actions ∧
    ag'.past_states = ag.past_states ∧
    ag'.past_actions = ag.past_actions := by
  obtain ⟨s1, a1, r, rest, hret, hcase⟩ := update_some_inv ag t ag' h
  have htail : rest = ag.past_returns.tail := by rw [hret, List.tail_cons]
  have hne : ag.past_returns ≠ [] := by rw [hret]; exact List.cons_ne_nil _ _
  rcases hcase with hW | ⟨s0, a0, hW⟩
  · subst hW
    refine ⟨hne, htail, ⟨flatIdx ag.n_actions s1.1 s1.2 a1, ⟨_, rfl⟩, ⟨_, rfl⟩,
      ?_⟩, rfl, rfl, rfl, rfl, rfl⟩
    intro m hm
    constructor
    · exact getD_set_ne _ _ _ _ (fun hcontra => hm hcontra.symm)
    · exact getD_set_ne _ _ _ _ (fun hcontra => hm hcontra.symm)
  · subst hW
    refine ⟨hne, htail, ⟨flatIdx ag.n_actions s0.1 s0.2 a0, ⟨_, rfl⟩, ⟨_, rfl⟩,
      ?_⟩, rfl, rfl, rfl, rfl, rfl⟩
    intro m hm
    constructor
    · exact getD_set_ne _ _ _ _ (fun hcontra => hm hcontra.symm)
    · exact getD_set_ne _ _ _ _ (fun hcontra => hm hcontra.symm)

/-- Witness for C10: the successful non-terminal update on `agentU`. -/
theorem update_frame_witness :
    ∃ ag', update agentU false = some ag' ∧
      agentU.past_returns ≠ [] ∧
      ag'.past_returns = agentU.past_returns.tail ∧
      (∃ cell : ℕ,
        (∃ qv, ag'.state_action_values = agentU.state_action_values.set cell qv) ∧
        (∃ nv, ag'.state_action_visits = agentU.state_action_visits.set cell nv) ∧
        ∀ m : ℕ, m ≠ cell →
          ag'.state_action_values.getD m 0 = agentU.state_action_values.getD m 0 ∧
          ag'.state_action_visits.getD m 0 = agentU.state_action_visits.getD m 0) ∧
      ag'.gamma = agentU.gamma ∧ ag'.n_0 = agentU.n_0 ∧
      ag'.possible_actions = agentU.possible_actions ∧
      ag'.past_states = agentU.past_states ∧
      ag'.past_actions = agentU.past_actions := by
  have hu : update agentU false
      = some (tdWrite agentU (1, 2) 0 (3, 4) 1 1 []) :=
    update_eq_td agentU (1, 2) (3, 4) 0 1 1 [] rfl rfl rfl
  exact ⟨tdWrite agentU (1, 2) 0 (3, 4) 1 1 [], hu,
    update_frame agentU false (tdWrite agentU (1, 2) 0 (3, 4) 1 1 []) hu⟩

end Easy21
